import Mathlib

/-!
Shallow embedding of the pagination and argument-normalization core of the
productboard-mcpb server (source file `src/unnamed/part_000`).  JavaScript
values that can appear in a tool-call argument bag or a decoded JSON response
are modelled by `JVal`; JavaScript numbers (the result of a `Number(...)`
conversion) are modelled by `JNum`, with NaN and the two infinities explicit
and finite values as exact rationals.  Each embedded definition mirrors one
source function and keeps its name.
-/

/-- A JSON-ish JavaScript value: the payloads and argument-bag entries the
server manipulates.  `undefined` is represented by `Option.none` one level
up (a missing key or a missing value), never by a `JVal` constructor. -/
inductive JVal where
  | null
  | bool (b : Bool)
  | num (q : ℚ)
  | str (s : String)
  | arr (xs : List JVal)
  | obj (fields : List (String × JVal))

/-- An argument bag / JSON object: ordered key-value pairs, first match wins
on lookup (JavaScript objects have unique keys; duplicates only arise from
the shadowing used in a few theorems below). -/
abbrev JObj := List (String × JVal)

/-- JavaScript truthiness of a defined value (`Boolean(v)`). -/
def JVal.truthy : JVal → Bool
  | .null => false
  | .bool b => b
  | .num q => decide (q ≠ 0)
  | .str s => !s.isEmpty
  | .arr _ => true
  | .obj _ => true

/-- Property read `o[k]`: `none` models `undefined`. -/
def jget (o : JObj) (k : String) : Option JVal :=
  List.lookup k o

/-- Truthiness of a possibly-undefined value (`Boolean(x)` with
`x === undefined` falsy). -/
def jsT (v : Option JVal) : Bool :=
  match v with
  | some x => x.truthy
  | none => false

/-- `x === undefined || x === null`: the values skipped by the `??` operator
and by optional chaining. -/
def isNullish (v : Option JVal) : Bool :=
  match v with
  | none => true
  | some .null => true
  | some _ => false

/-- The JavaScript nullish-coalescing operator `a ?? b`. -/
def nvl (a b : Option JVal) : Option JVal :=
  if isNullish a then b else a

/-- Source `toObject`: a non-array object passes through, everything else
(including `null` and arrays) becomes the empty object. -/
def JVal.toObj : JVal → JObj
  | .obj o => o
  | _ => []

/-- `toObject` applied to a possibly-undefined value. -/
def optObj (v : Option JVal) : JObj :=
  match v with
  | some x => x.toObj
  | none => []

/-- Optional chaining `v?.id`: property access on anything but an object
yields `undefined` (primitives have no `id` property, `null`/`undefined`
short-circuit). -/
def chainId (v : Option JVal) : Option JVal :=
  match v with
  | some (.obj o) => jget o "id"
  | _ => none

/-- Property access `v.k` on a possibly-undefined value, `undefined` when
the value is not an object. -/
def getField (v : Option JVal) (k : String) : Option JVal :=
  match v with
  | some (.obj o) => jget o k
  | _ => none

/-- A JavaScript number: NaN, the infinities, or an exact finite value. -/
inductive JNum where
  | nan
  | inf
  | ninf
  | fin (q : ℚ)

/-- Value of a list of decimal digit characters. -/
def digitsVal (l : List Char) : ℕ :=
  l.foldl (fun a c => a * 10 + (c.toNat - 48)) 0

/-- Value of one hexadecimal digit character. -/
def hexDigitVal (c : Char) : ℕ :=
  if c.isDigit then c.toNat - 48
  else if 'a' ≤ c ∧ c ≤ 'f' then c.toNat - 87
  else c.toNat - 55

/-- Hexadecimal digit test. -/
def isHexDigitB (c : Char) : Bool :=
  c.isDigit || ('a' ≤ c && c ≤ 'f') || ('A' ≤ c && c ≤ 'F')

/-- Octal digit test. -/
def isOctDigit (c : Char) : Bool :=
  '0' ≤ c && c ≤ '7'

/-- Binary digit test. -/
def isBinDigit (c : Char) : Bool :=
  c = '0' || c = '1'

/-- Value of a list of hexadecimal digit characters. -/
def hexVal (l : List Char) : ℕ :=
  l.foldl (fun a c => a * 16 + hexDigitVal c) 0

/-- Value of a list of octal digit characters. -/
def octVal (l : List Char) : ℕ :=
  l.foldl (fun a c => a * 8 + (c.toNat - 48)) 0

/-- Value of a list of binary digit characters. -/
def binVal (l : List Char) : ℕ :=
  l.foldl (fun a c => a * 2 + (c.toNat - 48)) 0

/-- A radix-prefixed numeric string body: all digits of the radix and
non-empty, else NaN. -/
def parseRadix (digits : List Char) (ok : Char → Bool) (val : List Char → ℕ) : JNum :=
  if digits ≠ [] ∧ digits.all ok then .fin (val digits) else .nan

/-- Exponent digits with an already-consumed sign: NaN marker (`none`) when
no digit follows. -/
def parseExpDigits (sign : ℤ) (r : List Char) : Option ℤ × List Char :=
  let (ed, rest) := r.span Char.isDigit
  (if ed.isEmpty then none else some (sign * (digitsVal ed : ℤ)), rest)

/-- Optional exponent part `e`/`E` with optional sign; absent exponent is 0. -/
def parseExpPart (r : List Char) : Option ℤ × List Char :=
  match r with
  | 'e' :: '+' :: r2 => parseExpDigits 1 r2
  | 'e' :: '-' :: r2 => parseExpDigits (-1) r2
  | 'e' :: r2 => parseExpDigits 1 r2
  | 'E' :: '+' :: r2 => parseExpDigits 1 r2
  | 'E' :: '-' :: r2 => parseExpDigits (-1) r2
  | 'E' :: r2 => parseExpDigits 1 r2
  | r2 => (some 0, r2)

/-- Unsigned decimal mantissa with optional fraction and exponent; the whole
remainder must be consumed and at least one digit must be present. -/
def parseDecMantissa (u : List Char) : JNum :=
  let s1 := u.span Char.isDigit
  let s2 : List Char × List Char :=
    match s1.2 with
    | '.' :: r => r.span Char.isDigit
    | _ => ([], s1.2)
  if s1.1.isEmpty ∧ s2.1.isEmpty then .nan
  else
    match parseExpPart s2.2 with
    | (some e, []) =>
        .fin (((digitsVal s1.1 : ℚ) + (digitsVal s2.1 : ℚ) / (10 : ℚ) ^ s2.1.length)
          * (10 : ℚ) ^ e)
    | _ => .nan

/-- Signed decimal literal or `Infinity`, sign already consumed. -/
def parseSigned (sign : ℚ) (r : List Char) : JNum :=
  if r = "Infinity".data then (if sign = 1 then .inf else .ninf)
  else
    match parseDecMantissa r with
    | .fin q => .fin (sign * q)
    | x => x

/-- Whitespace trimming on both ends of a character list (the trim that
`Number(...)` applies to its string argument). -/
def trimWs (l : List Char) : List Char :=
  ((l.dropWhile Char.isWhitespace).reverse.dropWhile Char.isWhitespace).reverse

/-- JavaScript `Number(s)` for a string `s`: trimmed; empty means 0; radix
prefixes `0x`/`0o`/`0b` (unsigned only); otherwise an optionally signed
decimal literal or `Infinity`; anything else is NaN. -/
def jsStrToNum (s : String) : JNum :=
  match trimWs s.data with
  | [] => .fin 0
  | '0' :: 'x' :: r => parseRadix r isHexDigitB hexVal
  | '0' :: 'X' :: r => parseRadix r isHexDigitB hexVal
  | '0' :: 'o' :: r => parseRadix r isOctDigit octVal
  | '0' :: 'O' :: r => parseRadix r isOctDigit octVal
  | '0' :: 'b' :: r => parseRadix r isBinDigit binVal
  | '0' :: 'B' :: r => parseRadix r isBinDigit binVal
  | '+' :: r => parseSigned 1 r
  | '-' :: r => parseSigned (-1) r
  | r => parseSigned 1 r

/-- JavaScript `Number(v)` for a defined value.  Arrays coerce through their
string form in JavaScript; that path is modelled as NaN here (no claim
involves an array-valued limit), plain objects are genuinely NaN. -/
def jsToNum : JVal → JNum
  | .num q => .fin q
  | .str s => jsStrToNum s
  | .bool b => .fin (if b then 1 else 0)
  | .null => .fin 0
  | .arr _ => .nan
  | .obj _ => .nan

/-- Source `normalizeLimit` with the default fallback 100 (`DEFAULT_LIMIT`,
the only fallback ever passed): `Number(inputLimit ?? 100)`; non-finite or
non-positive falls back to 100, otherwise `min(floor(limit), 1000)`. -/
def normalizeLimit (inputLimit : Option JVal) : ℤ :=
  let limit : JNum :=
    match inputLimit with
    | none => .fin 100
    | some .null => .fin 100
    | some v => jsToNum v
  match limit with
  | .fin q => if q ≤ 0 then 100 else min ⌊q⌋ 1000
  | _ => 100

/-- Truthiness of a possibly-absent string (`Boolean(s)`): present and
non-empty. -/
def jsTruthyS (s : Option String) : Bool :=
  match s with
  | some x => !x.isEmpty
  | none => false

/-- One decoded response of a link-paginated endpoint: the `data` array and
the `links.next` continuation URL (`none` models an absent link). -/
structure LinkPage (α : Type) where
  data : List α
  next : Option String

/-- The value returned by `listWithLinks`. -/
structure LinkResult (α : Type) where
  items : List α
  count : ℕ
  has_more : Bool
  next : Option String

/-- One page-append step of the link walker (the loop body of
`listWithLinks`): slice the page items to the remaining quota and append
(`items.push(...pageItems.slice(0, remaining))`). -/
def linkStep (maxItems : ℕ) (acc : List α) (p : LinkPage α) : List α :=
  acc ++ p.data.take (maxItems - acc.length)

/-- The accumulation loop of source `listWithLinks`, one recursive step per
HTTP request: `pages` lists the successive responses of the remote endpoint,
`acc` is the accumulated item list.  Returns the result together with the
number of requests issued, or `none` when the loop would issue a request
beyond the supplied responses.  Query construction (the first-page
page-size injection) does not influence accumulation and is not modelled. -/
def listWithLinksGo (maxItems : ℕ) :
    List α → List (LinkPage α) → Option (LinkResult α × ℕ)
  | acc, [] =>
    if maxItems ≤ acc.length then
      some (⟨acc, acc.length, false, none⟩, 0)
    else none
  | acc, p :: rest =>
    if maxItems ≤ acc.length then
      some (⟨acc, acc.length, false, none⟩, 0)
    else
      if jsTruthyS p.next = false ∨ maxItems ≤ (linkStep maxItems acc p).length then
        some (⟨linkStep maxItems acc p, (linkStep maxItems acc p).length,
               jsTruthyS p.next && decide (maxItems ≤ (linkStep maxItems acc p).length),
               p.next⟩, 1)
      else
        (listWithLinksGo maxItems (linkStep maxItems acc p) rest).map
          (fun x => (x.1, x.2 + 1))

/-- Source `listWithLinks`: normalize the requested limit, then walk the
`links.next` chain. -/
def listWithLinksRun (limit : Option JVal) (pages : List (LinkPage α)) :
    Option (LinkResult α × ℕ) :=
  listWithLinksGo (normalizeLimit limit).toNat [] pages

/-- Items accumulated by the link walker after consuming the first `k`
responses. -/
def linkAcc (maxItems : ℕ) (pages : List (LinkPage α)) (k : ℕ) : List α :=
  (pages.take k).foldl (linkStep maxItems) []

/-- One decoded response of the cursor-paginated `/notes` endpoint: the
`data` array and the sibling `pageCursor` token. -/
structure NotePage (α : Type) where
  data : List α
  pageCursor : Option String

/-- The query-visible part of one `/notes` request: the `pageLimit` sent and
the `pageCursor` sent (`none` models the parameter being omitted). -/
structure NotesReq where
  pageLimit : ℕ
  pageCursor : Option String

/-- The value returned by `listNotes`. -/
structure NotesResult (α : Type) where
  items : List α
  count : ℕ
  has_more : Bool
  next_cursor : Option String

/-- One page-append step of the notes walker (same slicing as the link
walker). -/
def notesStep (maxItems : ℕ) (acc : List α) (p : NotePage α) : List α :=
  acc ++ p.data.take (maxItems - acc.length)

/-- The request built by one `listNotes` loop iteration: `pageLimit` is
`min(100, remaining)`, and `pageCursor` is sent only when a truthy cursor is
held. -/
def mkNotesReq (maxItems accLen : ℕ) (cursor : Option String) : NotesReq :=
  ⟨min 100 (maxItems - accLen), if jsTruthyS cursor = true then cursor else none⟩

/-- The accumulation loop of source `listNotes`, one recursive step per HTTP
request: `cursor` is the cursor currently held (initially
`query.pageCursor`).  Returns the result together with the list of issued
requests, or `none` when the loop would issue a request beyond the supplied
responses. -/
def notesGo (maxItems : ℕ) :
    List α → Option String → List (NotePage α) → Option (NotesResult α × List NotesReq)
  | acc, _, [] =>
    if maxItems ≤ acc.length then
      some (⟨acc, acc.length, false, none⟩, [])
    else none
  | acc, cursor, p :: rest =>
    if maxItems ≤ acc.length then
      some (⟨acc, acc.length, false, none⟩, [])
    else
      if jsTruthyS p.pageCursor = false ∨ maxItems ≤ (notesStep maxItems acc p).length then
        some (⟨notesStep maxItems acc p, (notesStep maxItems acc p).length,
               jsTruthyS p.pageCursor && decide (maxItems ≤ (notesStep maxItems acc p).length),
               p.pageCursor⟩, [mkNotesReq maxItems acc.length cursor])
      else
        (notesGo maxItems (notesStep maxItems acc p) p.pageCursor rest).map
          (fun x => (x.1, mkNotesReq maxItems acc.length cursor :: x.2))

/-- Source `listNotes`: normalize the requested limit, seed the cursor from
`query.pageCursor`, then walk the cursor chain. -/
def listNotesRun (limit : Option JVal) (cursor0 : Option String)
    (pages : List (NotePage α)) : Option (NotesResult α × List NotesReq) :=
  notesGo (normalizeLimit limit).toNat [] cursor0 pages

/-- Items accumulated by the notes walker after consuming the first `k`
responses. -/
def notesAcc (maxItems : ℕ) (pages : List (NotePage α)) (k : ℕ) : List α :=
  (pages.take k).foldl (notesStep maxItems) []

/-- The error value carried by `ProductboardApiError`: message, optional
HTTP status, optional retry delay in seconds, optional raw details. -/
structure PbError where
  message : String
  status : Option ℕ := none
  retryAfter : Option ℚ := none
  details : Option JVal := none

/-- Check of an `Except` result for the error case. -/
def isErr (r : Except PbError β) : Bool :=
  match r with
  | .error _ => true
  | .ok _ => false

/-- Check of an `Except` result for the success case. -/
def isOkE (r : Except PbError β) : Bool :=
  match r with
  | .error _ => false
  | .ok _ => true

/-- A normalized status: the object sent to the API, with `id` and `name`
included only when present (each field spread in only when truthy). -/
structure StatusOut where
  id : Option JVal
  name : Option JVal

/-- Source `normalizeStatusInput`: `undefined`/`null` pass through, a bare
string becomes `{name}`, an object keeps its truthy `id`/`name` fields and
both truthy at once is a validation error; an empty reconciliation is
`undefined`. -/
def normalizeStatusInput (rawStatus : Option JVal) : Except PbError (Option StatusOut) :=
  match rawStatus with
  | none => .ok none
  | some .null => .ok none
  | some (.str s) => .ok (some ⟨none, some (.str s)⟩)
  | some v =>
    let st := v.toObj
    let idv := jget st "id"
    let namev := jget st "name"
    if jsT idv && jsT namev then
      .error ⟨"Provide either status.id or status.name, not both.", some 400, none, none⟩
    else if jsT idv || jsT namev then
      .ok (some ⟨if jsT idv then idv else none, if jsT namev then namev else none⟩)
    else
      .ok none

/-- Source `resolveStatusFromArgs`: reconcile the inline `status` value with
the flat `status_id`/`status_name` fields, rejecting ambiguous mixes. -/
def resolveStatusFromArgs (args : JObj) : Except PbError (Option StatusOut) :=
  match normalizeStatusInput (jget args "status") with
  | .error e => .error e
  | .ok inlineStatus =>
    if inlineStatus.isSome && (jsT (jget args "status_id") || jsT (jget args "status_name")) then
      .error ⟨"Provide status either as status object/string OR as status_id/status_name fields.",
              some 400, none, none⟩
    else if jsT (jget args "status_id") && jsT (jget args "status_name") then
      .error ⟨"Provide either status_id or status_name, not both.", some 400, none, none⟩
    else if inlineStatus.isSome then
      .ok inlineStatus
    else if jsT (jget args "status_id") then
      .ok (some ⟨jget args "status_id", none⟩)
    else if jsT (jget args "status_name") then
      .ok (some ⟨none, jget args "status_name"⟩)
    else
      .ok none

/-- A normalized parent: exactly one of the three kinds, with its id value. -/
inductive ParentOut where
  | product (id : JVal)
  | component (id : JVal)
  | feature (id : JVal)

/-- The product-kind resolution chain of `normalizeParentInput`:
`parent.product?.id ?? args.product?.id ?? args["product.id"] ?? args.product_id`. -/
def resolvedProductId (args : JObj) : Option JVal :=
  nvl (chainId (jget (optObj (jget args "parent")) "product"))
    (nvl (chainId (jget args "product"))
      (nvl (jget args "product.id") (jget args "product_id")))

/-- The component-kind resolution chain of `normalizeParentInput`. -/
def resolvedComponentId (args : JObj) : Option JVal :=
  nvl (chainId (jget (optObj (jget args "parent")) "component"))
    (nvl (chainId (jget args "component"))
      (nvl (jget args "component.id") (jget args "component_id")))

/-- The feature-kind resolution chain of `normalizeParentInput` (flat alias
`parent_feature_id`). -/
def resolvedFeatureId (args : JObj) : Option JVal :=
  nvl (chainId (jget (optObj (jget args "parent")) "feature"))
    (nvl (chainId (jget args "feature"))
      (nvl (jget args "feature.id") (jget args "parent_feature_id")))

/-- The candidate contributed by one resolution chain: present iff the
resolved value is truthy (`productId ? {product: {id: productId}} : null`). -/
def parentCand (mk : JVal → ParentOut) (v : Option JVal) : List ParentOut :=
  match v with
  | some x => if x.truthy then [mk x] else []
  | none => []

/-- The filtered candidate list of `normalizeParentInput` (the truthy
resolutions among the three kinds, in source order). -/
def parentCands (args : JObj) : List ParentOut :=
  parentCand .product (resolvedProductId args) ++
  parentCand .component (resolvedComponentId args) ++
  parentCand .feature (resolvedFeatureId args)

/-- Source `normalizeParentInput`: resolve the three parent kinds through
all their spellings; more than one truthy resolution is a validation error,
exactly one is returned, none is a validation error when a parent is
required and `undefined` otherwise. -/
def normalizeParentInput (args : JObj) (required : Bool) :
    Except PbError (Option ParentOut) :=
  match parentCands args with
  | [] =>
    if required then
      .error ⟨"Missing feature parent. Provide product.id, component.id, or parent_feature_id.",
              some 400, none, none⟩
    else .ok none
  | [c] => .ok (some c)
  | _ =>
    .error ⟨"Provide only one parent type: product, component, or feature.", some 400, none, none⟩

/-- A simple timeframe: `start`/`end` fields included iff present on the
input object (presence, not truthiness; `null` is kept). -/
structure SimpleTF where
  start : Option JVal
  fin : Option JVal

/-- Source `buildTimeframeInput` (simple form): pass `start`/`end` through
from an object input when at least one is a present key, `undefined`
otherwise (the `end` field is called `fin` here, `end` being reserved). -/
def buildTimeframeInput (input : Option JVal) : Option SimpleTF :=
  match input with
  | none => none
  | some .null => none
  | some (.obj o) =>
    let s := jget o "start"
    let e := jget o "end"
    if s.isSome || e.isSome then some ⟨s, e⟩ else none
  | some _ => none

/-- A date-range timeframe: `startDate`/`endDate`/`granularity` fields
included iff the corresponding value is present. -/
structure TimeframeOut where
  startDate : Option JVal
  endDate : Option JVal
  granularity : Option JVal

/-- Presence test of `buildDateTimeframeInput`: defined, not `null` and not
the empty string. -/
def tfPresent (v : Option JVal) : Bool :=
  match v with
  | none => false
  | some .null => false
  | some (.str s) => !s.isEmpty
  | some _ => true

/-- The overrides object passed to `buildDateTimeframeInput` by its callers
(flat-alias values). -/
structure TfOverrides where
  startDate : Option JVal := none
  endDate : Option JVal := none
  granularity : Option JVal := none

/-- The coalesced `startDate` of `buildDateTimeframeInput`:
`overrides.startDate ?? value.startDate ?? value.start`. -/
def tfStartDate (input : Option JVal) (ov : TfOverrides) : Option JVal :=
  nvl ov.startDate (nvl (jget (optObj input) "startDate") (jget (optObj input) "start"))

/-- The coalesced `endDate` of `buildDateTimeframeInput`:
`overrides.endDate ?? value.endDate ?? value.end`. -/
def tfEndDate (input : Option JVal) (ov : TfOverrides) : Option JVal :=
  nvl ov.endDate (nvl (jget (optObj input) "endDate") (jget (optObj input) "end"))

/-- The coalesced `granularity` of `buildDateTimeframeInput`:
`overrides.granularity ?? value.granularity`. -/
def tfGranularity (input : Option JVal) (ov : TfOverrides) : Option JVal :=
  nvl ov.granularity (jget (optObj input) "granularity")

/-- Source `buildDateTimeframeInput`: coalesce each of the three components
from the overrides, the nested object (`startDate`/`start` spellings), then
require `startDate`/`endDate` to be present together; all three absent means
no timeframe at all. -/
def buildDateTimeframeInput (input : Option JVal) (ov : TfOverrides) :
    Except PbError (Option TimeframeOut) :=
  let startDate := tfStartDate input ov
  let endDate := tfEndDate input ov
  let granularity := tfGranularity input ov
  if tfPresent startDate = false ∧ tfPresent endDate = false ∧
      tfPresent granularity = false then
    .ok none
  else if tfPresent startDate ≠ tfPresent endDate then
    .error ⟨"Timeframe requires both startDate and endDate when provided.", some 400, none, none⟩
  else
    .ok (some ⟨if tfPresent startDate then startDate else none,
               if tfPresent endDate then endDate else none,
               if tfPresent granularity then granularity else none⟩)

/-- The overrides object every caller of `buildDateTimeframeInput` builds:
`{startDate: args.start_date ?? args.startDate, endDate: args.end_date ??
args.endDate, granularity: args.granularity}`. -/
def tfOverridesFromArgs (args : JObj) : TfOverrides :=
  ⟨nvl (jget args "start_date") (jget args "startDate"),
   nvl (jget args "end_date") (jget args "endDate"),
   jget args "granularity"⟩

/-- A date-range timeframe as resolved from a full argument bag (the
`buildDateTimeframeInput(args.timeframe, {...aliases})` call shared by the
objective / key-result / initiative / release handlers). -/
def dateTimeframeFromArgs (args : JObj) : Except PbError (Option TimeframeOut) :=
  buildDateTimeframeInput (jget args "timeframe") (tfOverridesFromArgs args)

/-- The update object built by `pbFeatureUpdate`: each field is included iff
the corresponding spread fired.  `owner = some (some e)` is `{email: e}`,
`owner = some none` is the explicit `null` that clears the field. -/
structure UpdateData where
  name : Option JVal
  description : Option JVal
  archived : Option Bool
  status : Option StatusOut
  parent : Option ParentOut
  owner : Option (Option JVal)
  timeframe : Option SimpleTF

/-- `Object.keys(data).length === 0` for an update object: every spread
contributed nothing. -/
def UpdateData.isEmpty (d : UpdateData) : Bool :=
  d.name.isNone && d.description.isNone && d.archived.isNone && d.status.isNone &&
  d.parent.isNone && d.owner.isNone && d.timeframe.isNone

/-- The update object assembled by `pbFeatureUpdate` from the keys that are
present (`!== undefined` for `name`, `description`, `archived`,
`owner_email`) and the already-resolved status / parent. -/
def mkUpdateData (args : JObj) (status : Option StatusOut)
    (parent : Option ParentOut) : UpdateData :=
  ⟨jget args "name", jget args "description",
   (jget args "archived").map JVal.truthy,
   status, parent,
   (jget args "owner_email").map (fun v => if v.truthy then some v else none),
   buildTimeframeInput (jget args "timeframe")⟩

/-- Source `pbFeatureUpdate` up to the PATCH request: validate `id`, resolve
status / parent / timeframe, assemble the update object, and reject an empty
update.  An `.ok` value is the body the PATCH would carry; every `.error` is
raised before any request is issued. -/
def pbFeatureUpdateData (args : JObj) : Except PbError UpdateData :=
  if jsT (jget args "id") = false then
    .error ⟨"Missing required parameter: id", some 400, none, none⟩
  else
    match resolveStatusFromArgs args with
    | .error e => .error e
    | .ok status =>
      match normalizeParentInput args false with
      | .error e => .error e
      | .ok parent =>
        if (mkUpdateData args status parent).isEmpty then
          .error ⟨"No update fields provided.", some 400, none, none⟩
        else .ok (mkUpdateData args status parent)

/-- Test for the feature parent kind (`parent.feature` truthiness in the
`type` default of `pbFeatureCreate`). -/
def isFeatureParent : ParentOut → Bool
  | .feature _ => true
  | _ => false

/-- The creation body built by `pbFeatureCreate` (its `data` field). -/
structure CreateData where
  name : Option JVal
  description : Option JVal
  type : JVal
  status : StatusOut
  parent : ParentOut
  archived : Option Bool
  owner : Option JVal
  timeframe : Option SimpleTF

/-- Source `pbFeatureCreate` up to the POST request: require truthy `name`
and `description`, a resolved status and a resolved parent (the parent
resolution runs with `required = true`, so its `none` case is unreachable
and only repeats the same missing-parent error for totality), then assemble
the body; `archived` is spread in iff the key is present, coerced with
`Boolean(...)`; `owner` is spread in iff `owner_email` is truthy. -/
def pbFeatureCreateData (args : JObj) : Except PbError CreateData :=
  if (jsT (jget args "name") && jsT (jget args "description")) = false then
    .error ⟨"Missing required parameters: name and description.", some 400, none, none⟩
  else
    match resolveStatusFromArgs args with
    | .error e => .error e
    | .ok none =>
      .error ⟨"Missing required status. Provide status.name, status.id, status_name, or status_id.",
              some 400, none, none⟩
    | .ok (some status) =>
      match normalizeParentInput args true with
      | .error e => .error e
      | .ok none =>
        .error ⟨"Missing feature parent. Provide product.id, component.id, or parent_feature_id.",
                some 400, none, none⟩
      | .ok (some parent) =>
        .ok ⟨jget args "name", jget args "description",
             (if isNullish (jget args "type") then
                .str (if isFeatureParent parent then "subfeature" else "feature")
              else (jget args "type").getD .null),
             status, parent,
             (jget args "archived").map JVal.truthy,
             (if jsT (jget args "owner_email") then jget args "owner_email" else none),
             buildTimeframeInput (jget args "timeframe")⟩

/-- The slice of an HTTP response that `buildApiError` inspects: the status
code and the `retry-after` header (`none` when absent). -/
structure HttpResponse where
  status : ℕ
  retryAfterHeader : Option String

/-- The `errors`-array probe of source `extractErrorMessage`: first element
as a string, or its `message` / `detail` string field. -/
def extractFromErrors (o : JObj) (fallbackMessage : String) : String :=
  match jget o "errors" with
  | some (.arr (first :: _)) =>
    (match first with
     | .str s => s
     | .obj fo =>
       (match jget fo "message" with
        | some (.str s) => s
        | _ =>
          match jget fo "detail" with
          | some (.str s) => s
          | _ => fallbackMessage)
     | _ => fallbackMessage)
  | _ => fallbackMessage

/-- The `error.message` probe of source `extractErrorMessage`: a truthy
`error` value whose `message` property is a string. -/
def extractFromErrorField (o : JObj) (fallbackMessage : String) : String :=
  match jget o "error" with
  | some ev =>
    if ev.truthy then
      match getField (some ev) "message" with
      | some (.str s) => s
      | _ => extractFromErrors o fallbackMessage
    else extractFromErrors o fallbackMessage
  | none => extractFromErrors o fallbackMessage

/-- Source `extractErrorMessage`: a non-object payload falls back; otherwise
a non-blank top-level `message` string wins, then `error.message`, then the
first element of the `errors` array. -/
def extractErrorMessage (payload : Option JVal) (fallbackMessage : String) : String :=
  match payload with
  | some (.obj o) =>
    (match jget o "message" with
     | some (.str s) => if s.trim.isEmpty then extractFromErrorField o fallbackMessage else s
     | _ => extractFromErrorField o fallbackMessage)
  | _ => fallbackMessage

/-- Source `buildApiError`: classify a non-2xx response.  The `retry-after`
header is converted with `Number(...)` when the header string is truthy, and
attached only when finite; statuses 401/403/404/429 override the extracted
message with a fixed one; details keep the payload, or the fallback text
when the payload is nullish. -/
def buildApiError (response : HttpResponse) (payload : Option JVal)
    (fallbackText : Option String) : PbError :=
  let status := response.status
  let retryAfterNum : Option JNum :=
    match response.retryAfterHeader with
    | some h => if h.isEmpty then none else some (jsStrToNum h)
    | none => none
  let generic := "Productboard API returned HTTP " ++ toString status ++ "."
  let fb : String :=
    match fallbackText with
    | some t => if t.isEmpty then generic else t
    | none => generic
  let message0 := extractErrorMessage payload fb
  let message :=
    if status = 401 then "Authentication failed. Check your Productboard API token."
    else if status = 403 then "Access denied by Productboard API. Verify token permissions."
    else if status = 404 then "Requested Productboard resource was not found."
    else if status = 429 then "Productboard API rate limit reached. Please retry shortly."
    else message0
  ⟨message, some status,
   (match retryAfterNum with | some (.fin q) => some q | _ => none),
   (if isNullish payload then fallbackText.map .str else payload)⟩

/-- The `error` object of the uniform error envelope: `status`,
`retry_after_seconds` and `details` are spread in only when truthy. -/
structure ErrorEnvelope where
  message : String
  status : Option ℕ
  retry_after_seconds : Option ℚ
  details : Option JVal

/-- Source `asErrorResult` restricted to a `ProductboardApiError`: build the
envelope payload (the JSON stringification around it is not modelled). -/
def asErrorResult (e : PbError) : ErrorEnvelope :=
  ⟨e.message,
   (match e.status with | some s => if s ≠ 0 then some s else none | none => none),
   (match e.retryAfter with | some q => if q ≠ 0 then some q else none | none => none),
   (match e.details with | some d => if d.truthy then some d else none | none => none)⟩

/-- HTTP status of a failed computation, `none` on success. -/
def errStatus (r : Except PbError β) : Option ℕ :=
  match r with
  | .error e => e.status
  | .ok _ => none

/-- Message of a failed computation, `none` on success. -/
def errMessageOf (r : Except PbError β) : Option String :=
  match r with
  | .error e => some e.message
  | .ok _ => none

/-- Helper: `normalizeLimit` on a defined, non-null input is the
`Number`-conversion followed by the finiteness / positivity check. -/
theorem normalizeLimit_some_eq (v : JVal) (hv : v ≠ .null) :
    normalizeLimit (some v) =
      (match jsToNum v with
       | .fin q => if q ≤ 0 then 100 else min ⌊q⌋ 1000
       | _ => 100) := by
  cases v <;> simp_all [normalizeLimit]

/-- C3 counterexample: the requested limit 0.5 is numeric and positive, yet
the effective limit is `min(floor(0.5), 1000) = 0`, outside the claimed
range [1, 1000]. -/
theorem c3_counterexample_half_limit :
    normalizeLimit (some (.num (1/2))) = 0 ∧
    ¬(1 ≤ normalizeLimit (some (.num (1/2)))) := by
  have hfl : ⌊(1/2 : ℚ)⌋ = 0 := by norm_num
  have h : normalizeLimit (some (.num (1/2))) = 0 := by
    norm_num [normalizeLimit, jsToNum, hfl]
  exact ⟨h, by omega⟩

/-- C3 (amended): the effective limit always lies in [0, 1000]; it is 100
for an unspecified, null, non-numeric or non-positive input, and
`min(floor(input), 1000)` for a positive finite input — which can be 0 when
the input lies strictly between 0 and 1. -/
theorem c3_normalizeLimit_amended :
    (∀ x : Option JVal, 0 ≤ normalizeLimit x ∧ normalizeLimit x ≤ 1000) ∧
    normalizeLimit none = 100 ∧
    normalizeLimit (some .null) = 100 ∧
    (∀ v : JVal, v ≠ .null → (jsToNum v = .nan ∨ jsToNum v = .inf ∨ jsToNum v = .ninf) →
      normalizeLimit (some v) = 100) ∧
    (∀ (v : JVal) (q : ℚ), v ≠ .null → jsToNum v = .fin q → q ≤ 0 →
      normalizeLimit (some v) = 100) ∧
    (∀ (v : JVal) (q : ℚ), v ≠ .null → jsToNum v = .fin q → 0 < q →
      normalizeLimit (some v) = min ⌊q⌋ 1000) := by
  refine ⟨?_, by rfl, by rfl, ?_, ?_, ?_⟩
  · intro x
    match x with
    | none => exact ⟨by norm_num [normalizeLimit], by norm_num [normalizeLimit]⟩
    | some v =>
      by_cases hv : v = JVal.null
      · subst hv; exact ⟨by norm_num [normalizeLimit], by norm_num [normalizeLimit]⟩
      · rw [normalizeLimit_some_eq v hv]
        cases hj : jsToNum v with
        | fin q =>
          by_cases hq : q ≤ 0
          · simp [hq]
          · have h0 : (0 : ℤ) ≤ ⌊q⌋ := Int.floor_nonneg.mpr (le_of_lt (not_le.mp hq))
            simp only [if_neg hq]
            exact ⟨le_min h0 (by norm_num), min_le_right _ _⟩
        | nan => simp
        | inf => simp
        | ninf => simp
  · intro v hv hj
    rw [normalizeLimit_some_eq v hv]
    rcases hj with h | h | h <;> rw [h]
  · intro v q hv hj hq
    rw [normalizeLimit_some_eq v hv, hj]
    simp [hq]
  · intro v q hv hj hq
    rw [normalizeLimit_some_eq v hv, hj]
    simp [hq.not_le]

/-- Witness for the amended C3 theorem at the positive finite input 0.5. -/
theorem c3_normalizeLimit_amended_witness :
    (JVal.num (1/2) ≠ JVal.null) ∧ jsToNum (.num (1/2)) = .fin (1/2) ∧
    (0 < (1/2 : ℚ)) ∧
    normalizeLimit (some (.num (1/2))) = min ⌊(1/2 : ℚ)⌋ 1000 :=
  ⟨fun h => JVal.noConfusion h, rfl, by norm_num,
   c3_normalizeLimit_amended.2.2.2.2.2 (.num (1/2)) (1/2)
     (fun h => JVal.noConfusion h) rfl (by norm_num)⟩

/-- Helper: every error raised by `normalizeStatusInput` is a validation
error with status 400. -/
theorem normalizeStatusInput_error_status (x : Option JVal) (e : PbError)
    (h : normalizeStatusInput x = .error e) : e.status = some 400 := by
  match x with
  | none => exact Except.noConfusion h
  | some .null => exact Except.noConfusion h
  | some (.str s) => exact Except.noConfusion h
  | some (.bool b) => revert h; simp [normalizeStatusInput, JVal.toObj, jget, jsT]
  | some (.num q) => revert h; simp [normalizeStatusInput, JVal.toObj, jget, jsT]
  | some (.arr xs) => revert h; simp [normalizeStatusInput, JVal.toObj, jget, jsT]
  | some (.obj o) =>
    revert h
    simp only [normalizeStatusInput, JVal.toObj]
    split
    · intro h; cases h; rfl
    · split
      · intro h; exact Except.noConfusion h
      · intro h; exact Except.noConfusion h

/-- C5: status resolution.  Mixing an inline status (object or string) with
the flat `status_id`/`status_name` fields is a 400 validation error, as is
supplying both flat fields, or an inline object carrying truthy `id` and
`name` at once; `status_name: "Done"` alone normalizes to `{name: "Done"}`,
a bare string to `{name}`, and `status_id` alone to `{id}`. -/
theorem c5_status_resolution :
    (∀ args : JObj, normalizeStatusInput (jget args "status") ≠ .ok none →
      (jsT (jget args "status_id") = true ∨ jsT (jget args "status_name") = true) →
      isErr (resolveStatusFromArgs args) = true ∧
      errStatus (resolveStatusFromArgs args) = some 400) ∧
    (∀ args : JObj, jsT (jget args "status_id") = true →
      jsT (jget args "status_name") = true →
      isErr (resolveStatusFromArgs args) = true ∧
      errStatus (resolveStatusFromArgs args) = some 400) ∧
    (∀ (args : JObj) (o : JObj), jget args "status" = some (.obj o) →
      jsT (jget o "id") = true → jsT (jget o "name") = true →
      isErr (resolveStatusFromArgs args) = true ∧
      errStatus (resolveStatusFromArgs args) = some 400) ∧
    resolveStatusFromArgs [("status_name", .str "Done")] =
      .ok (some ⟨none, some (.str "Done")⟩) ∧
    (∀ s : String, resolveStatusFromArgs [("status", .str s)] =
      .ok (some ⟨none, some (.str s)⟩)) ∧
    (∀ v : JVal, v.truthy = true →
      resolveStatusFromArgs [("status_id", v)] = .ok (some ⟨some v, none⟩)) := by
  refine ⟨?_, ?_, ?_, by rfl, ?_, ?_⟩
  · intro args hinl hsep
    cases hn : normalizeStatusInput (jget args "status") with
    | error e =>
      unfold resolveStatusFromArgs
      rw [hn]
      exact ⟨rfl, normalizeStatusInput_error_status _ _ hn⟩
    | ok st =>
      cases st with
      | none => exact absurd hn hinl
      | some st0 =>
        unfold resolveStatusFromArgs
        rw [hn]
        rcases hsep with h | h <;> simp [isErr, errStatus, h]
  · intro args h1 h2
    cases hn : normalizeStatusInput (jget args "status") with
    | error e =>
      unfold resolveStatusFromArgs
      rw [hn]
      exact ⟨rfl, normalizeStatusInput_error_status _ _ hn⟩
    | ok st =>
      unfold resolveStatusFromArgs
      rw [hn]
      cases st with
      | none => simp [isErr, errStatus, h1, h2]
      | some st0 => simp [isErr, errStatus, h1]
  · intro args o hso h1 h2
    have hn : normalizeStatusInput (jget args "status") =
        .error ⟨"Provide either status.id or status.name, not both.",
                some 400, none, none⟩ := by
      rw [hso]
      simp [normalizeStatusInput, JVal.toObj, h1, h2]
    unfold resolveStatusFromArgs
    rw [hn]
    exact ⟨rfl, rfl⟩
  · intro s
    rfl
  · intro v hv
    have h1 : jget [("status_id", v)] "status" = none := rfl
    have h2 : jget [("status_id", v)] "status_id" = some v := rfl
    have h3 : jget [("status_id", v)] "status_name" = none := rfl
    unfold resolveStatusFromArgs
    rw [h1, h2, h3]
    simp [normalizeStatusInput, jsT, hv]

/-- Witness for C5 at the concrete conflicting bag
`{status_id: "a", status_name: "b"}`. -/
theorem c5_status_resolution_witness :
    jsT (jget [("status_id", .str "a"), ("status_name", .str "b")] "status_id") = true ∧
    jsT (jget [("status_id", .str "a"), ("status_name", .str "b")] "status_name") = true ∧
    isErr (resolveStatusFromArgs [("status_id", .str "a"), ("status_name", .str "b")]) = true ∧
    errStatus (resolveStatusFromArgs [("status_id", .str "a"), ("status_name", .str "b")]) =
      some 400 := by
  have h := c5_status_resolution.2.1 [("status_id", .str "a"), ("status_name", .str "b")]
    (by rfl) (by rfl)
  exact ⟨rfl, rfl, h.1, h.2⟩

/-- Helper: one parent kind contributes one candidate iff its resolved value
is truthy. -/
theorem parentCand_length (mk : JVal → ParentOut) (v : Option JVal) :
    (parentCand mk v).length = (jsT v).toNat := by
  cases v with
  | none => rfl
  | some x => cases hx : x.truthy <;> simp [parentCand, jsT, hx]

/-- Helper: a falsy resolution contributes no candidate. -/
theorem parentCand_eq_nil (mk : JVal → ParentOut) (v : Option JVal)
    (h : jsT v = false) : parentCand mk v = [] := by
  cases v <;> simp_all [parentCand, jsT]

/-- C6: parent normalization.  Two or more truthy parent resolutions (over
all spellings) are a 400 validation error; a required parent with no truthy
resolution is a 400 validation error; `parent_feature_id: "f1"` alone
normalizes to the feature parent `{feature: {id: "f1"}}`. -/
theorem c6_parent_normalization :
    (∀ (args : JObj) (required : Bool),
      2 ≤ (jsT (resolvedProductId args)).toNat + (jsT (resolvedComponentId args)).toNat +
          (jsT (resolvedFeatureId args)).toNat →
      isErr (normalizeParentInput args required) = true ∧
      errStatus (normalizeParentInput args required) = some 400) ∧
    (∀ args : JObj, jsT (resolvedProductId args) = false →
      jsT (resolvedComponentId args) = false → jsT (resolvedFeatureId args) = false →
      isErr (normalizeParentInput args true) = true ∧
      errStatus (normalizeParentInput args true) = some 400) ∧
    normalizeParentInput [("parent_feature_id", .str "f1")] false =
      .ok (some (.feature (.str "f1"))) := by
  refine ⟨?_, ?_, by rfl⟩
  · intro args required h
    have hlen : (parentCands args).length =
        (jsT (resolvedProductId args)).toNat + (jsT (resolvedComponentId args)).toNat +
        (jsT (resolvedFeatureId args)).toNat := by
      simp [parentCands, parentCand_length]
      omega
    cases hc : parentCands args with
    | nil => rw [hc] at hlen; simp at hlen; omega
    | cons a t =>
      cases t with
      | nil => rw [hc] at hlen; simp at hlen; omega
      | cons b t2 =>
        unfold normalizeParentInput
        rw [hc]
        exact ⟨rfl, rfl⟩
  · intro args h1 h2 h3
    have hc : parentCands args = [] := by
      simp [parentCands, parentCand_eq_nil _ _ h1, parentCand_eq_nil _ _ h2,
        parentCand_eq_nil _ _ h3]
    unfold normalizeParentInput
    rw [hc]
    exact ⟨rfl, rfl⟩

/-- Witness for C6 at the concrete bag `{product_id: "p1", component_id:
"c1"}` (two parent kinds resolve at once). -/
theorem c6_parent_normalization_witness :
    2 ≤ (jsT (resolvedProductId [("product_id", .str "p1"), ("component_id", .str "c1")])).toNat +
        (jsT (resolvedComponentId [("product_id", .str "p1"), ("component_id", .str "c1")])).toNat +
        (jsT (resolvedFeatureId [("product_id", .str "p1"), ("component_id", .str "c1")])).toNat ∧
    isErr (normalizeParentInput [("product_id", .str "p1"), ("component_id", .str "c1")] false) = true ∧
    errStatus (normalizeParentInput [("product_id", .str "p1"), ("component_id", .str "c1")] false) =
      some 400 := by
  have h := c6_parent_normalization.1 [("product_id", .str "p1"), ("component_id", .str "c1")]
    false Nat.le.refl
  exact ⟨Nat.le.refl, h.1, h.2⟩

/-- C7: date-range timeframes.  A present `startDate` without a present
`endDate` (or conversely) is a 400 validation error; a granularity alone is
accepted and produces just `{granularity}`; all three components absent
means the timeframe is omitted entirely.  The last three conjuncts exercise
the flat aliases through the shared caller pattern. -/
theorem c7_date_timeframe :
    (∀ (input : Option JVal) (ov : TfOverrides),
      tfPresent (tfStartDate input ov) ≠ tfPresent (tfEndDate input ov) →
      isErr (buildDateTimeframeInput input ov) = true ∧
      errStatus (buildDateTimeframeInput input ov) = some 400) ∧
    (∀ (input : Option JVal) (ov : TfOverrides),
      tfPresent (tfStartDate input ov) = false →
      tfPresent (tfEndDate input ov) = false →
      tfPresent (tfGranularity input ov) = true →
      buildDateTimeframeInput input ov = .ok (some ⟨none, none, tfGranularity input ov⟩)) ∧
    (∀ (input : Option JVal) (ov : TfOverrides),
      tfPresent (tfStartDate input ov) = false →
      tfPresent (tfEndDate input ov) = false →
      tfPresent (tfGranularity input ov) = false →
      buildDateTimeframeInput input ov = .ok none) ∧
    isErr (dateTimeframeFromArgs [("start_date", .str "2024-01-01")]) = true ∧
    errStatus (dateTimeframeFromArgs [("start_date", .str "2024-01-01")]) = some 400 ∧
    dateTimeframeFromArgs [("granularity", .str "month")] =
      .ok (some ⟨none, none, some (.str "month")⟩) := by
  refine ⟨?_, ?_, ?_, by rfl, by rfl, by rfl⟩
  · intro input ov h
    unfold buildDateTimeframeInput
    cases hs : tfPresent (tfStartDate input ov) <;>
      cases he : tfPresent (tfEndDate input ov) <;> rw [hs, he] at h <;>
      simp [hs, he, isErr, errStatus] at h ⊢
  · intro input ov h1 h2 h3
    unfold buildDateTimeframeInput
    simp [h1, h2, h3]
  · intro input ov h1 h2 h3
    unfold buildDateTimeframeInput
    simp [h1, h2, h3]

/-- Witness for C7 at a present `start_date` override with an absent
`endDate`. -/
theorem c7_date_timeframe_witness :
    tfPresent (tfStartDate none ⟨some (.str "2024-01-01"), none, none⟩) ≠
      tfPresent (tfEndDate none ⟨some (.str "2024-01-01"), none, none⟩) ∧
    isErr (buildDateTimeframeInput none ⟨some (.str "2024-01-01"), none, none⟩) = true ∧
    errStatus (buildDateTimeframeInput none ⟨some (.str "2024-01-01"), none, none⟩) =
      some 400 := by
  have hne : tfPresent (tfStartDate none ⟨some (.str "2024-01-01"), none, none⟩) ≠
      tfPresent (tfEndDate none ⟨some (.str "2024-01-01"), none, none⟩) := by
    intro h
    exact Bool.noConfusion h
  have h := c7_date_timeframe.1 none ⟨some (.str "2024-01-01"), none, none⟩ hne
  exact ⟨hne, h.1, h.2⟩

/-- C8: feature update.  With a valid `id` and zero recognized update fields
(no present `name` / `description` / `archived` / `owner_email` key, no
resolved status or parent, no timeframe) the update fails with the
"No update fields provided." 400 error before any request; on success the
body fields follow key-presence semantics, so `owner_email: ""` present
clears the owner (`owner: null`) while an absent `owner_email` omits the
owner field entirely. -/
theorem c8_update_key_presence :
    (∀ args : JObj, jsT (jget args "id") = true →
      jget args "name" = none → jget args "description" = none →
      jget args "archived" = none → jget args "owner_email" = none →
      resolveStatusFromArgs args = .ok none →
      normalizeParentInput args false = .ok none →
      buildTimeframeInput (jget args "timeframe") = none →
      pbFeatureUpdateData args =
        .error ⟨"No update fields provided.", some 400, none, none⟩) ∧
    (∀ (args : JObj) (d : UpdateData), pbFeatureUpdateData args = .ok d →
      d.name = jget args "name" ∧ d.description = jget args "description" ∧
      d.archived = (jget args "archived").map JVal.truthy ∧
      d.owner = (jget args "owner_email").map (fun v => if v.truthy then some v else none)) ∧
    pbFeatureUpdateData [("id", .str "f1"), ("owner_email", .str "")] =
      .ok ⟨none, none, none, none, none, some none, none⟩ ∧
    pbFeatureUpdateData [("id", .str "f1"), ("owner_email", .str "a@b.c")] =
      .ok ⟨none, none, none, none, none, some (some (.str "a@b.c")), none⟩ ∧
    errMessageOf (pbFeatureUpdateData [("id", .str "f1")]) =
      some "No update fields provided." := by
  refine ⟨?_, ?_, by rfl, by rfl, by rfl⟩
  · intro args hid hname hdesc harch howner hst hpar htf
    unfold pbFeatureUpdateData
    rw [hid, hst, hpar]
    have hdata : mkUpdateData args none none = ⟨none, none, none, none, none, none, none⟩ := by
      unfold mkUpdateData
      rw [hname, hdesc, harch, howner, htf]
      rfl
    simp [hdata, UpdateData.isEmpty]
  · intro args d h
    unfold pbFeatureUpdateData at h
    split at h
    · exact Except.noConfusion h
    · split at h
      · exact Except.noConfusion h
      · split at h
        · exact Except.noConfusion h
        · split at h
          · exact Except.noConfusion h
          · injection h with h2
            subst h2
            exact ⟨rfl, rfl, rfl, rfl⟩

/-- Witness for C8 at the bag `{id: "f1"}` with no update field at all. -/
theorem c8_update_key_presence_witness :
    jsT (jget [("id", .str "f1")] "id") = true ∧
    resolveStatusFromArgs [("id", .str "f1")] = .ok none ∧
    normalizeParentInput [("id", .str "f1")] false = .ok none ∧
    pbFeatureUpdateData [("id", .str "f1")] =
      .error ⟨"No update fields provided.", some 400, none, none⟩ :=
  ⟨rfl, rfl, rfl,
   c8_update_key_presence.1 [("id", .str "f1")] rfl rfl rfl rfl rfl rfl rfl rfl⟩

/-- Helper: property reads skip a shadowing entry with a different key. -/
theorem jget_cons_ne (k q : String) (v : JVal) (args : JObj) (h : (k == q) = false) :
    jget ((q, v) :: args) k = jget args k := by
  simp [jget, List.lookup, h]

/-- Helper: property reads hit a shadowing entry with the same key. -/
theorem jget_cons_self (q : String) (v : JVal) (args : JObj) :
    jget ((q, v) :: args) q = some v := by
  simp [jget, List.lookup]

/-- Helper: status resolution ignores the `archived` entry. -/
theorem resolveStatus_shadow_archived (v : JVal) (args : JObj) :
    resolveStatusFromArgs (("archived", v) :: args) = resolveStatusFromArgs args := by
  unfold resolveStatusFromArgs
  rw [jget_cons_ne "status" "archived" v args rfl,
      jget_cons_ne "status_id" "archived" v args rfl,
      jget_cons_ne "status_name" "archived" v args rfl]

/-- Helper: the product chain ignores the `archived` entry. -/
theorem resolvedProductId_shadow_archived (v : JVal) (args : JObj) :
    resolvedProductId (("archived", v) :: args) = resolvedProductId args := by
  unfold resolvedProductId
  rw [jget_cons_ne "parent" "archived" v args rfl,
      jget_cons_ne "product" "archived" v args rfl,
      jget_cons_ne "product.id" "archived" v args rfl,
      jget_cons_ne "product_id" "archived" v args rfl]

/-- Helper: the component chain ignores the `archived` entry. -/
theorem resolvedComponentId_shadow_archived (v : JVal) (args : JObj) :
    resolvedComponentId (("archived", v) :: args) = resolvedComponentId args := by
  unfold resolvedComponentId
  rw [jget_cons_ne "parent" "archived" v args rfl,
      jget_cons_ne "component" "archived" v args rfl,
      jget_cons_ne "component.id" "archived" v args rfl,
      jget_cons_ne "component_id" "archived" v args rfl]

/-- Helper: the feature chain ignores the `archived` entry. -/
theorem resolvedFeatureId_shadow_archived (v : JVal) (args : JObj) :
    resolvedFeatureId (("archived", v) :: args) = resolvedFeatureId args := by
  unfold resolvedFeatureId
  rw [jget_cons_ne "parent" "archived" v args rfl,
      jget_cons_ne "feature" "archived" v args rfl,
      jget_cons_ne "feature.id" "archived" v args rfl,
      jget_cons_ne "parent_feature_id" "archived" v args rfl]

/-- Helper: parent normalization ignores the `archived` entry. -/
theorem normalizeParent_shadow_archived (v : JVal) (args : JObj) (req : Bool) :
    normalizeParentInput (("archived", v) :: args) req = normalizeParentInput args req := by
  unfold normalizeParentInput parentCands
  rw [resolvedProductId_shadow_archived, resolvedComponentId_shadow_archived,
      resolvedFeatureId_shadow_archived]

/-- C10: `archived` is coerced with JavaScript truthiness, never validated.
On any successful create or update the body's `archived` field is the
truthiness of the provided value (present key semantics); whether the
builders succeed is independent of the `archived` value, so no value —
boolean or not — ever causes a validation error; the strings "false" and
"0" are truthy and so produce `archived: true`, while the number 0 produces
`archived: false`. -/
theorem c10_archived_boolean_coercion :
    (∀ (args : JObj) (b : CreateData), pbFeatureCreateData args = .ok b →
      b.archived = (jget args "archived").map JVal.truthy) ∧
    (∀ (args : JObj) (d : UpdateData), pbFeatureUpdateData args = .ok d →
      d.archived = (jget args "archived").map JVal.truthy) ∧
    (∀ (args : JObj) (v w : JVal),
      isOkE (pbFeatureCreateData (("archived", v) :: args)) =
        isOkE (pbFeatureCreateData (("archived", w) :: args)) ∧
      isOkE (pbFeatureUpdateData (("archived", v) :: args)) =
        isOkE (pbFeatureUpdateData (("archived", w) :: args))) ∧
    (pbFeatureCreateData [("name", .str "n"), ("description", .str "d"),
        ("status_name", .str "s"), ("product_id", .str "p"),
        ("archived", .str "false")]).map CreateData.archived = .ok (some true) ∧
    (pbFeatureCreateData [("name", .str "n"), ("description", .str "d"),
        ("status_name", .str "s"), ("product_id", .str "p"),
        ("archived", .str "0")]).map CreateData.archived = .ok (some true) ∧
    (pbFeatureUpdateData [("id", .str "f1"), ("archived", .num 0)]).map
        UpdateData.archived = .ok (some false) := by
  refine ⟨?_, ?_, ?_, by rfl, by rfl, ?_⟩
  · intro args b h
    unfold pbFeatureCreateData at h
    split at h
    · exact Except.noConfusion h
    · split at h
      · exact Except.noConfusion h
      · exact Except.noConfusion h
      · split at h
        · exact Except.noConfusion h
        · exact Except.noConfusion h
        · injection h with h2
          subst h2
          rfl
  · intro args d h
    unfold pbFeatureUpdateData at h
    split at h
    · exact Except.noConfusion h
    · split at h
      · exact Except.noConfusion h
      · split at h
        · exact Except.noConfusion h
        · split at h
          · exact Except.noConfusion h
          · injection h with h2
            subst h2
            rfl
  · intro args v w
    constructor
    · unfold pbFeatureCreateData
      rw [jget_cons_ne "name" "archived" v args rfl,
          jget_cons_ne "name" "archived" w args rfl,
          jget_cons_ne "description" "archived" v args rfl,
          jget_cons_ne "description" "archived" w args rfl,
          resolveStatus_shadow_archived v, resolveStatus_shadow_archived w,
          normalizeParent_shadow_archived v, normalizeParent_shadow_archived w]
      split
      · rfl
      · cases resolveStatusFromArgs args with
        | error e => rfl
        | ok st =>
          cases st with
          | none => rfl
          | some st0 =>
            cases normalizeParentInput args true with
            | error e => rfl
            | ok par =>
              cases par with
              | none => rfl
              | some p => rfl
    · unfold pbFeatureUpdateData
      rw [jget_cons_ne "id" "archived" v args rfl,
          jget_cons_ne "id" "archived" w args rfl,
          resolveStatus_shadow_archived v, resolveStatus_shadow_archived w,
          normalizeParent_shadow_archived v, normalizeParent_shadow_archived w]
      split
      · rfl
      · cases resolveStatusFromArgs args with
        | error e => rfl
        | ok st =>
          cases normalizeParentInput args false with
          | error e => rfl
          | ok par =>
            dsimp only
            have hv : (mkUpdateData (("archived", v) :: args) st par).isEmpty = false := by
              simp [mkUpdateData, UpdateData.isEmpty, jget_cons_self]
            have hw : (mkUpdateData (("archived", w) :: args) st par).isEmpty = false := by
              simp [mkUpdateData, UpdateData.isEmpty, jget_cons_self]
            rw [hv, hw]
            rfl
  · rfl

/-- Witness for C10 archived-independence at a concrete bag and values. -/
theorem c10_archived_boolean_coercion_witness :
    pbFeatureUpdateData (("archived", .str "false") :: [("id", .str "f1")]) =
      .ok ⟨none, none, some true, none, none, none, none⟩ ∧
    isOkE (pbFeatureUpdateData (("archived", .str "false") :: [("id", .str "f1")])) =
      isOkE (pbFeatureUpdateData (("archived", .bool false) :: [("id", .str "f1")])) :=
  ⟨rfl, (c10_archived_boolean_coercion.2.2.1 [("id", .str "f1")]
    (.str "false") (.bool false)).2⟩

/-- Helper: the header string "3" converts to the finite number 3. -/
theorem jsStrToNum_three : jsStrToNum "3" = .fin 3 := by
  have h : jsStrToNum "3" =
      .fin (1 * ((((3:ℕ):ℚ) + ((0:ℕ):ℚ) / (10:ℚ) ^ (0:ℕ)) * (10:ℚ) ^ (0:ℤ))) := rfl
  rw [h]
  norm_num

/-- Helper: the header string "0" converts to the finite number 0. -/
theorem jsStrToNum_zero : jsStrToNum "0" = .fin 0 := by
  have h : jsStrToNum "0" =
      .fin (1 * ((((0:ℕ):ℚ) + ((0:ℕ):ℚ) / (10:ℚ) ^ (0:ℕ)) * (10:ℚ) ^ (0:ℤ))) := rfl
  rw [h]
  norm_num

/-- C9 counterexample: the header `retry-after: 0` parses as the finite
number 0 and is attached to the error, yet the envelope omits
`retry_after_seconds` (the spread guard uses truthiness and 0 is falsy). -/
theorem c9_counterexample_retry_after_zero :
    jsStrToNum "0" = .fin 0 ∧
    (buildApiError ⟨429, some "0"⟩ none none).retryAfter = some 0 ∧
    (asErrorResult (buildApiError ⟨429, some "0"⟩ none none)).retry_after_seconds = none := by
  have hie : "0".isEmpty = false := rfl
  have hra : (buildApiError ⟨429, some "0"⟩ none none).retryAfter = some 0 := by
    simp [buildApiError, jsStrToNum_zero, hie]
  refine ⟨jsStrToNum_zero, hra, ?_⟩
  simp [asErrorResult, hra]

/-- C9 (amended): every 429 response yields the fixed rate-limit message;
a non-empty `retry-after` header that parses as a finite number is attached
to the error, and surfaced as `retry_after_seconds` in the envelope whenever
it is nonzero (a zero value is attached but omitted from the envelope);
concretely, `retry-after: 3` surfaces `retry_after_seconds: 3`. -/
theorem c9_rate_limit_retry_after :
    (∀ (resp : HttpResponse) (payload : Option JVal) (fb : Option String)
       (h : String) (q : ℚ),
      resp.status = 429 →
      (buildApiError resp payload fb).message =
        "Productboard API rate limit reached. Please retry shortly." ∧
      (resp.retryAfterHeader = some h → h.isEmpty = false → jsStrToNum h = .fin q →
        (buildApiError resp payload fb).retryAfter = some q ∧
        (q ≠ 0 →
          (asErrorResult (buildApiError resp payload fb)).retry_after_seconds = some q))) ∧
    (asErrorResult (buildApiError ⟨429, some "3"⟩ none none)).retry_after_seconds = some 3 ∧
    (asErrorResult (buildApiError ⟨429, some "3"⟩ none none)).message =
      "Productboard API rate limit reached. Please retry shortly." := by
  have hie : "3".isEmpty = false := rfl
  have hra3 : (buildApiError ⟨429, some "3"⟩ none none).retryAfter = some 3 := by
    simp [buildApiError, jsStrToNum_three, hie]
  refine ⟨?_, by simp [asErrorResult, hra3], by simp [asErrorResult, buildApiError]⟩
  intro resp payload fb h q hst
  constructor
  · simp [buildApiError, hst]
  · intro hh hne hnum
    have hretry : (buildApiError resp payload fb).retryAfter = some q := by
      simp [buildApiError, hh, hne, hnum]
    refine ⟨hretry, ?_⟩
    intro hq
    simp [asErrorResult, hretry, hq]

/-- Witness for the amended C9 theorem at a simulated
`429, retry-after: 3` response. -/
theorem c9_rate_limit_retry_after_witness :
    (buildApiError ⟨429, some "3"⟩ none none).message =
      "Productboard API rate limit reached. Please retry shortly." ∧
    (buildApiError ⟨429, some "3"⟩ none none).retryAfter = some 3 ∧
    (asErrorResult (buildApiError ⟨429, some "3"⟩ none none)).retry_after_seconds = some 3 := by
  have h := c9_rate_limit_retry_after.1 ⟨429, some "3"⟩ none none "3" 3 rfl
  have h2 := h.2 rfl rfl jsStrToNum_three
  exact ⟨h.1, h2.1, h2.2 (by norm_num)⟩

/-- Helper: full characterization of a terminating `listWithLinks` walk that
starts below quota.  The result respects the quota, `has_more` is the
conjunction of a truthy final continuation link with quota reached, the
final `next` field is the last consumed response's link, and every request
was issued while the accumulated count was still below the quota. -/
theorem listWithLinksGo_spec {α : Type} (N : ℕ) :
    ∀ (pages : List (LinkPage α)) (acc : List α) (res : LinkResult α) (r : ℕ),
      acc.length < N →
      listWithLinksGo N acc pages = some (res, r) →
      res.items.length ≤ N ∧
      res.has_more = (jsTruthyS res.next && decide (N ≤ res.items.length)) ∧
      1 ≤ r ∧
      (pages[r - 1]?).map LinkPage.next = some res.next ∧
      (∀ k, k < r → ((pages.take k).foldl (linkStep N) acc).length < N) := by
  intro pages
  induction pages with
  | nil =>
    intro acc res r hacc h
    unfold listWithLinksGo at h
    rw [if_neg (by omega)] at h
    exact Option.noConfusion h
  | cons p rest ih =>
    intro acc res r hacc h
    unfold listWithLinksGo at h
    rw [if_neg (by omega)] at h
    by_cases hcond : jsTruthyS p.next = false ∨ N ≤ (linkStep N acc p).length
    · rw [if_pos hcond] at h
      simp only [Option.some.injEq, Prod.mk.injEq] at h
      obtain ⟨hres, hr⟩ := h
      subst hres
      subst hr
      refine ⟨?_, rfl, by omega, by simp, ?_⟩
      · simp only [linkStep, List.length_append, List.length_take]
        omega
      · intro k hk
        have hk0 : k = 0 := by omega
        subst hk0
        simpa using hacc
    · rw [if_neg hcond] at h
      rw [not_or] at hcond
      obtain ⟨htr, hle⟩ := hcond
      have hlt : (linkStep N acc p).length < N := by omega
      cases hgo : listWithLinksGo N (linkStep N acc p) rest with
      | none => rw [hgo] at h; exact Option.noConfusion h
      | some x =>
        obtain ⟨res0, r0⟩ := x
        rw [hgo] at h
        simp only [Option.map_some', Option.some.injEq, Prod.mk.injEq] at h
        obtain ⟨hres, hr⟩ := h
        subst hres
        subst hr
        obtain ⟨ih1, ih2, ih3, ih4, ih5⟩ := ih (linkStep N acc p) res0 r0 hlt hgo
        refine ⟨ih1, ih2, by omega, ?_, ?_⟩
        · have hr0 : r0 + 1 - 1 = (r0 - 1) + 1 := by omega
          rw [hr0, List.getElem?_cons_succ]
          exact ih4
        · intro k hk
          cases k with
          | zero => simpa using hacc
          | succ k2 =>
            rw [List.take_succ_cons, List.foldl_cons]
            exact ih5 k2 (by omega)

/-- Helper: full characterization of a terminating `listNotes` walk that
starts below quota: quota respected, `has_more` as for the link walker, the
final cursor is the last response's cursor, every request carries
`pageLimit = min(100, remaining)` and was issued below quota, the first
request forwards the initial cursor iff it is truthy, and every later
request forwards the truthy cursor of the previous response. -/
theorem notesGo_spec {α : Type} (N : ℕ) :
    ∀ (pages : List (NotePage α)) (acc : List α) (c0 : Option String)
      (res : NotesResult α) (reqs : List NotesReq),
      acc.length < N →
      notesGo N acc c0 pages = some (res, reqs) →
      res.items.length ≤ N ∧
      res.has_more = (jsTruthyS res.next_cursor && decide (N ≤ res.items.length)) ∧
      1 ≤ reqs.length ∧
      (pages[reqs.length - 1]?).map NotePage.pageCursor = some res.next_cursor ∧
      (∀ i, (h : i < reqs.length) →
        (reqs.get ⟨i, h⟩).pageLimit =
          min 100 (N - ((pages.take i).foldl (notesStep N) acc).length) ∧
        ((pages.take i).foldl (notesStep N) acc).length < N) ∧
      (∀ q0, reqs.head? = some q0 →
        q0.pageCursor = (if jsTruthyS c0 = true then c0 else none)) ∧
      (∀ i q0, reqs[i + 1]? = some q0 →
        ∃ p, pages[i]? = some p ∧ jsTruthyS p.pageCursor = true ∧
          q0.pageCursor = p.pageCursor) := by
  intro pages
  induction pages with
  | nil =>
    intro acc c0 res reqs hacc h
    unfold notesGo at h
    rw [if_neg (by omega)] at h
    exact Option.noConfusion h
  | cons p rest ih =>
    intro acc c0 res reqs hacc h
    unfold notesGo at h
    rw [if_neg (by omega)] at h
    by_cases hcond : jsTruthyS p.pageCursor = false ∨ N ≤ (notesStep N acc p).length
    · rw [if_pos hcond] at h
      simp only [Option.some.injEq, Prod.mk.injEq] at h
      obtain ⟨hres, hr⟩ := h
      subst hres
      subst hr
      refine ⟨?_, rfl, by simp, by simp, ?_, ?_, ?_⟩
      · simp only [notesStep, List.length_append, List.length_take]
        omega
      · intro i hi
        have hi0 : i = 0 := by simpa using hi
        subst hi0
        exact ⟨rfl, by simpa using hacc⟩
      · intro q0 hq
        simp only [List.head?_cons, Option.some.injEq] at hq
        subst hq
        rfl
      · intro i q0 hq
        rw [List.getElem?_cons_succ] at hq
        simp at hq
    · rw [if_neg hcond] at h
      rw [not_or] at hcond
      obtain ⟨htr, hle⟩ := hcond
      have htr2 : jsTruthyS p.pageCursor = true := by
        cases hx : jsTruthyS p.pageCursor
        · exact absurd hx htr
        · rfl
      have hlt : (notesStep N acc p).length < N := by omega
      cases hgo : notesGo N (notesStep N acc p) p.pageCursor rest with
      | none => rw [hgo] at h; exact Option.noConfusion h
      | some x =>
        obtain ⟨res0, reqs0⟩ := x
        rw [hgo] at h
        simp only [Option.map_some', Option.some.injEq, Prod.mk.injEq] at h
        obtain ⟨hres, hr⟩ := h
        subst hres
        subst hr
        obtain ⟨ih1, ih2, ih3, ih4, ih5, ih6, ih7⟩ :=
          ih (notesStep N acc p) p.pageCursor res0 reqs0 hlt hgo
        refine ⟨ih1, ih2, by simp, ?_, ?_, ?_, ?_⟩
        · have hr0 : (mkNotesReq N acc.length c0 :: reqs0).length - 1 = (reqs0.length - 1) + 1 := by
            simp
            omega
          rw [hr0, List.getElem?_cons_succ]
          exact ih4
        · intro i hi
          cases i with
          | zero =>
            exact ⟨rfl, by simpa using hacc⟩
          | succ j =>
            have hj : j < reqs0.length := by simpa using hi
            have hget : (mkNotesReq N acc.length c0 :: reqs0).get ⟨j + 1, hi⟩ =
                reqs0.get ⟨j, hj⟩ := rfl
            rw [hget, List.take_succ_cons, List.foldl_cons]
            exact ih5 j hj
        · intro q0 hq
          simp only [List.head?_cons, Option.some.injEq] at hq
          subst hq
          rfl
        · intro i q0 hq
          rw [List.getElem?_cons_succ] at hq
          cases i with
          | zero =>
            cases reqs0 with
            | nil => exact absurd hq (by simp)
            | cons q1 t =>
              simp only [List.getElem?_cons_zero, Option.some.injEq] at hq
              refine ⟨p, by simp, htr2, ?_⟩
              have h6 := ih6 q1 rfl
              rw [← hq, h6, if_pos htr2]
          | succ j =>
            obtain ⟨p2, hp2, htp2, hqp2⟩ := ih7 j q0 hq
            exact ⟨p2, by rw [List.getElem?_cons_succ]; exact hp2, htp2, hqp2⟩

/-- Helper: a requested maximum already in [1, 1000] is its own effective
limit. -/
theorem normalizeLimit_natCast (N : ℕ) (h1 : 1 ≤ N) (h2 : N ≤ 1000) :
    (normalizeLimit (some (.num (N : ℚ)))).toNat = N := by
  have h0 : ¬((N : ℚ) ≤ 0) := by
    push_neg
    exact_mod_cast Nat.lt_of_lt_of_le Nat.zero_lt_one h1
  simp only [normalizeLimit, jsToNum]
  rw [if_neg h0, Int.floor_natCast, min_eq_left (by exact_mod_cast h2)]
  simp

/-- C1: for every requested maximum N in [1, 1000] and every terminating
page sequence, both walkers return at most N items, and `has_more` is true
iff the continuation token of the last response received (`links.next`
resp. `pageCursor`, surfaced as `res.next` / `res.next_cursor`) is truthy
and the quota was reached. -/
theorem c1_walkers_quota_has_more :
    ∀ (N : ℕ), 1 ≤ N → N ≤ 1000 →
    (∀ (α : Type) (pages : List (LinkPage α)) (res : LinkResult α) (r : ℕ),
      listWithLinksRun (some (.num (N : ℚ))) pages = some (res, r) →
      res.items.length ≤ N ∧
      (res.has_more = true ↔ (jsTruthyS res.next = true ∧ N ≤ res.items.length)) ∧
      1 ≤ r ∧ (pages[r - 1]?).map LinkPage.next = some res.next) ∧
    (∀ (α : Type) (c0 : Option String) (pages : List (NotePage α))
       (res : NotesResult α) (reqs : List NotesReq),
      listNotesRun (some (.num (N : ℚ))) c0 pages = some (res, reqs) →
      res.items.length ≤ N ∧
      (res.has_more = true ↔ (jsTruthyS res.next_cursor = true ∧ N ≤ res.items.length)) ∧
      1 ≤ reqs.length ∧
      (pages[reqs.length - 1]?).map NotePage.pageCursor = some res.next_cursor) := by
  intro N h1 h2
  have hN : (normalizeLimit (some (.num (N : ℚ)))).toNat = N :=
    normalizeLimit_natCast N h1 h2
  constructor
  · intro α pages res r h
    unfold listWithLinksRun at h
    rw [hN] at h
    obtain ⟨s1, s2, s3, s4, _⟩ :=
      listWithLinksGo_spec N pages [] res r (by simpa using h1) h
    exact ⟨s1, by rw [s2]; simp, s3, s4⟩
  · intro α c0 pages res reqs h
    unfold listNotesRun at h
    rw [hN] at h
    obtain ⟨s1, s2, s3, s4, _, _, _⟩ :=
      notesGo_spec N pages [] c0 res reqs (by simpa using h1) h
    exact ⟨s1, by rw [s2]; simp, s3, s4⟩

/-- Witness for C1 at N = 1 with a single one-item page carrying a `next`
link (link walker) and a one-item page with no cursor (notes walker). -/
theorem c1_walkers_quota_has_more_witness :
    listWithLinksRun (some (.num ((1:ℕ) : ℚ))) [(⟨["a"], some "u"⟩ : LinkPage String)] =
      some (⟨["a"], 1, true, some "u"⟩, 1) ∧
    (⟨["a"], 1, true, some "u"⟩ : LinkResult String).items.length ≤ 1 ∧
    listNotesRun (some (.num ((1:ℕ) : ℚ))) none [(⟨["b"], none⟩ : NotePage String)] =
      some (⟨["b"], 1, false, none⟩, [⟨1, none⟩]) ∧
    (⟨["b"], 1, false, none⟩ : NotesResult String).items.length ≤ 1 := by
  have hN : (normalizeLimit (some (.num ((1:ℕ) : ℚ)))).toNat = 1 :=
    normalizeLimit_natCast 1 (le_refl 1) (by norm_num)
  have hrun1 : listWithLinksRun (some (.num ((1:ℕ) : ℚ)))
      [(⟨["a"], some "u"⟩ : LinkPage String)] = some (⟨["a"], 1, true, some "u"⟩, 1) := by
    unfold listWithLinksRun
    rw [hN]
    rfl
  have hrun2 : listNotesRun (some (.num ((1:ℕ) : ℚ))) none
      [(⟨["b"], none⟩ : NotePage String)] = some (⟨["b"], 1, false, none⟩, [⟨1, none⟩]) := by
    unfold listNotesRun
    rw [hN]
    rfl
  refine ⟨hrun1, ?_, hrun2, ?_⟩
  · exact ((c1_walkers_quota_has_more 1 (le_refl 1) (by norm_num)).1
      String _ _ _ hrun1).1
  · exact ((c1_walkers_quota_has_more 1 (le_refl 1) (by norm_num)).2
      String none _ _ _ hrun2).1

set_option maxRecDepth 16384 in
/-- C2: the link walker only issues a request while the accumulated count is
still below the effective maximum (it never fetches a page it would discard
entirely); concretely, a walk with max 250 against an endpoint returning
100-item pages with a `next` link on every page issues exactly 3 requests,
returns 250 items, and reports `has_more = true`. -/
theorem c2_no_wasted_request :
    (∀ (α : Type) (limit : Option JVal) (pages : List (LinkPage α))
       (res : LinkResult α) (r : ℕ),
      listWithLinksRun limit pages = some (res, r) →
      ∀ k, k < r →
        (linkAcc (normalizeLimit limit).toNat pages k).length <
          (normalizeLimit limit).toNat) ∧
    ((listWithLinksRun (some (.num ((250:ℕ) : ℚ)))
        (List.replicate 4 (⟨List.replicate 100 "item", some "/features?pageOffset=100"⟩ :
          LinkPage String))).map (fun x => (x.1.count, x.1.has_more, x.2)) =
      some (250, true, 3)) := by
  constructor
  · intro α limit pages res r h k hk
    by_cases hM : 0 < (normalizeLimit limit).toNat
    · exact (listWithLinksGo_spec _ pages [] res r (by simpa using hM) h).2.2.2.2 k hk
    · exfalso
      have hM0 : (normalizeLimit limit).toNat = 0 := by omega
      unfold listWithLinksRun at h
      rw [hM0] at h
      have hr0 : r = 0 := by
        cases pages with
        | nil =>
          unfold listWithLinksGo at h
          rw [if_pos (by omega)] at h
          simp only [Option.some.injEq, Prod.mk.injEq] at h
          exact h.2.symm
        | cons p rest =>
          unfold listWithLinksGo at h
          rw [if_pos (by omega)] at h
          simp only [Option.some.injEq, Prod.mk.injEq] at h
          exact h.2.symm
      omega
  · have h250 : (normalizeLimit (some (.num ((250:ℕ) : ℚ)))).toNat = 250 :=
      normalizeLimit_natCast 250 (by norm_num) (by norm_num)
    unfold listWithLinksRun
    rw [h250]
    rfl

/-- Witness for the general part of C2 at a two-page walk with max 1 that
stops after its first request. -/
theorem c2_no_wasted_request_witness :
    listWithLinksRun (some (.num ((1:ℕ) : ℚ)))
      [(⟨["a"], some "u"⟩ : LinkPage String), ⟨["b"], some "v"⟩] =
      some (⟨["a"], 1, true, some "u"⟩, 1) ∧
    (0 : ℕ) < 1 ∧
    (linkAcc (normalizeLimit (some (.num ((1:ℕ) : ℚ)))).toNat
      [(⟨["a"], some "u"⟩ : LinkPage String), ⟨["b"], some "v"⟩] 0).length <
      (normalizeLimit (some (.num ((1:ℕ) : ℚ)))).toNat := by
  have hN : (normalizeLimit (some (.num ((1:ℕ) : ℚ)))).toNat = 1 :=
    normalizeLimit_natCast 1 (le_refl 1) (by norm_num)
  have hrun : listWithLinksRun (some (.num ((1:ℕ) : ℚ)))
      [(⟨["a"], some "u"⟩ : LinkPage String), ⟨["b"], some "v"⟩] =
      some (⟨["a"], 1, true, some "u"⟩, 1) := by
    unfold listWithLinksRun
    rw [hN]
    rfl
  exact ⟨hrun, Nat.zero_lt_one,
    c2_no_wasted_request.1 String _ _ _ _ hrun 0 Nat.zero_lt_one⟩

/-- C4: on every terminating notes walk, each issued request carries
`pageLimit = min(100, remaining_needed)`, the first request forwards the
initial `query.pageCursor` iff it is truthy (and omits the parameter
otherwise), and every later request forwards the truthy `pageCursor` of the
immediately preceding response. -/
theorem c4_notes_requests :
    ∀ (α : Type) (limit : Option JVal) (c0 : Option String)
      (pages : List (NotePage α)) (res : NotesResult α) (reqs : List NotesReq),
      listNotesRun limit c0 pages = some (res, reqs) →
      (∀ i, (h : i < reqs.length) →
        (reqs.get ⟨i, h⟩).pageLimit =
          min 100 ((normalizeLimit limit).toNat -
            (notesAcc (normalizeLimit limit).toNat pages i).length)) ∧
      (∀ q0, reqs.head? = some q0 →
        q0.pageCursor = (if jsTruthyS c0 = true then c0 else none)) ∧
      (∀ i q0, reqs[i + 1]? = some q0 →
        ∃ p, pages[i]? = some p ∧ jsTruthyS p.pageCursor = true ∧
          q0.pageCursor = p.pageCursor) := by
  intro α limit c0 pages res reqs h
  by_cases hM : 0 < (normalizeLimit limit).toNat
  · unfold listNotesRun at h
    obtain ⟨_, _, _, _, s5, s6, s7⟩ :=
      notesGo_spec ((normalizeLimit limit).toNat) pages [] c0 res reqs
        (by simpa using hM) h
    exact ⟨fun i hi => (s5 i hi).1, s6, s7⟩
  · have hM0 : (normalizeLimit limit).toNat = 0 := by omega
    unfold listNotesRun at h
    rw [hM0] at h
    have hr0 : reqs = [] := by
      cases pages with
      | nil =>
        unfold notesGo at h
        rw [if_pos (by omega)] at h
        simp only [Option.some.injEq, Prod.mk.injEq] at h
        exact h.2.symm
      | cons p rest =>
        unfold notesGo at h
        rw [if_pos (by omega)] at h
        simp only [Option.some.injEq, Prod.mk.injEq] at h
        exact h.2.symm
    subst hr0
    refine ⟨?_, ?_, ?_⟩
    · intro i hi
      exact absurd hi (by simp)
    · intro q0 hq
      exact Option.noConfusion hq
    · intro i q0 hq
      exact Option.noConfusion hq

set_option maxRecDepth 16384 in
/-- Witness for C4 at a two-page walk with max 150 seeded with no cursor:
the first 100-item page carries cursor "c1", so the second request forwards
it and asks for the remaining 50. -/
theorem c4_notes_requests_witness :
    listNotesRun (some (.num ((150:ℕ) : ℚ))) none
      [(⟨List.replicate 100 "n", some "c1"⟩ : NotePage String),
       ⟨List.replicate 100 "n", some "c2"⟩] =
      some (⟨List.replicate 100 "n" ++ List.replicate 50 "n", 150, true, some "c2"⟩,
            [⟨100, none⟩, ⟨50, some "c1"⟩]) ∧
    ([⟨100, none⟩, ⟨50, some "c1"⟩] : List NotesReq).head?.map NotesReq.pageCursor =
      some none ∧
    (⟨50, some "c1"⟩ : NotesReq).pageCursor = some "c1" := by
  have hN : (normalizeLimit (some (.num ((150:ℕ) : ℚ)))).toNat = 150 :=
    normalizeLimit_natCast 150 (by norm_num) (by norm_num)
  have hrun : listNotesRun (some (.num ((150:ℕ) : ℚ))) none
      [(⟨List.replicate 100 "n", some "c1"⟩ : NotePage String),
       ⟨List.replicate 100 "n", some "c2"⟩] =
      some (⟨List.replicate 100 "n" ++ List.replicate 50 "n", 150, true, some "c2"⟩,
            [⟨100, none⟩, ⟨50, some "c1"⟩]) := by
    unfold listNotesRun
    rw [hN]
    rfl
  have hc := c4_notes_requests String (some (.num ((150:ℕ) : ℚ))) none
    [(⟨List.replicate 100 "n", some "c1"⟩ : NotePage String),
     ⟨List.replicate 100 "n", some "c2"⟩] _ _ hrun
  refine ⟨hrun, ?_, ?_⟩
  · have := hc.2.1 ⟨100, none⟩ rfl
    simp [this]
  · obtain ⟨p, hp, htp, hqp⟩ := hc.2.2 0 ⟨50, some "c1"⟩ rfl
    simp only [List.getElem?_cons_zero, Option.some.injEq] at hp
    rw [hqp, ← hp]
